import Mathlib

/-!
Shallow embedding of the SBD_Soccer dataset-creation pipeline
(src/dataset_creation/goal_clip_extractor.py, frame_extractor.py,
goal_clip_and_frame_extraction.py, utils.py).

Python strings are modelled as `List Char`; Python exceptions as
`Option`/`Except`; the cv2 video capture as a record of an `opened`
flag, the reported fps / frame count, and the list of decodable frames.
-/

namespace SBD

/-! ## Python string primitives -/

/-- ASCII whitespace as recognized by Python's `str.strip`. -/
def pyIsSpace (c : Char) : Bool :=
  c == ' ' || c == '\t' || c == '\n' || c == '\r' || c == '\x0b' || c == '\x0c'

/-- `str.strip()`: drop whitespace from both ends. -/
def stripChars (l : List Char) : List Char :=
  ((l.dropWhile pyIsSpace).reverse.dropWhile pyIsSpace).reverse

/-- Numeric value of a decimal digit character. -/
def digitVal (c : Char) : Nat := c.toNat - 48

/-- Value of a list of decimal digit characters, most significant first. -/
def digitsVal (l : List Char) : Nat :=
  l.foldl (fun a c => a * 10 + digitVal c) 0

/-- Whether every character of the list is a decimal digit. -/
def allDigits (l : List Char) : Bool := l.all Char.isDigit

/-- Digit-run parsing used by Python's `int` after sign handling:
nonempty, all decimal digits.  (Underscore digit grouping and non-ASCII
digits accepted by CPython are not modelled; no input in this
development uses them.) -/
def parseDigits (l : List Char) : Option Nat :=
  if l.isEmpty then none
  else if allDigits l then some (digitsVal l) else none

/-- Sign handling of Python `int(s)` after stripping. -/
def pyIntCore : List Char → Option Int
  | [] => none
  | c :: rest =>
    if c = '-' then
      match parseDigits rest with
      | none => none
      | some n => some (-(n : Int))
    else if c = '+' then
      match parseDigits rest with
      | none => none
      | some n => some ((n : Int))
    else
      match parseDigits (c :: rest) with
      | none => none
      | some n => some ((n : Int))

/-- Python `int(s)` on a string: strip whitespace, optional sign, digits;
`none` models the `ValueError` raise. -/
def pyInt (l : List Char) : Option Int := pyIntCore (stripChars l)

/-- Python `str.lower()` (ASCII). -/
def pyLower (l : List Char) : List Char := l.map Char.toLower

/-- Prepend a character to the first part of a split result. -/
def consHead (c : Char) : List (List Char) → List (List Char)
  | [] => [[c]]
  | p :: ps => (c :: p) :: ps

/-- Python `s.split(" - ")`: split on the three-character separator
space-dash-space, leftmost non-overlapping matches. -/
def splitOnDash : List Char → List (List Char)
  | [] => [[]]
  | [c] => [[c]]
  | [c1, c2] => [[c1, c2]]
  | c1 :: c2 :: c3 :: rest =>
    if c1 = ' ' ∧ c2 = '-' ∧ c3 = ' ' then [] :: splitOnDash rest
    else consHead c1 (splitOnDash (c2 :: c3 :: rest))

/-- Python `s.split(":")`. -/
def splitOnColon : List Char → List (List Char)
  | [] => [[]]
  | c :: rest =>
    if c = ':' then [] :: splitOnColon rest else consHead c (splitOnColon rest)

/-! ## Game-Time Parser

`GoalClipExtractor.parse_game_time` (goal_clip_extractor.py lines 23-28):
```
video_idx_str, time_str = game_time_str.split(" - ")
video_idx = int(video_idx_str.strip())
mins, secs = map(int, time_str.strip().split(":"))
return video_idx, mins * 60 + secs
```
`none` models any raised exception (unpacking of a split of length ≠ 2,
or `int` failing). -/

/-- `mins * 60 + secs` once both halves of `mm:ss` parsed as ints;
any `int` failure raises. -/
def pgtFin (vid : Int) : Option Int → Option Int → Option (Int × Int)
  | some m, some sec => some (vid, m * 60 + sec)
  | _, _ => none

/-- Unpacking `mins, secs = map(int, ...)`: exactly two parts required. -/
def pgtTime (vid : Int) : List (List Char) → Option (Int × Int)
  | [mstr, sstr] => pgtFin vid (pyInt mstr) (pyInt sstr)
  | _ => none

/-- `int(video_idx_str.strip())` then the `mm:ss` handling. -/
def pgtVid : Option Int → List Char → Option (Int × Int)
  | none, _ => none
  | some vid, tstr => pgtTime vid (splitOnColon (stripChars tstr))

/-- Unpacking `video_idx_str, time_str = game_time_str.split(" - ")`:
exactly two parts required. -/
def pgtParts : List (List Char) → Option (Int × Int)
  | [vstr, tstr] => pgtVid (pyInt vstr) tstr
  | _ => none

def parse_game_time (s : List Char) : Option (Int × Int) :=
  pgtParts (splitOnDash s)

/-! ## Lemmas about the string primitives -/

theorem consHead_cons (c : Char) (p : List Char) (ps : List (List Char)) :
    consHead c (p :: ps) = (c :: p) :: ps := rfl

/-- One step of `splitOnDash` when the head cannot start the separator. -/
theorem splitOnDash_cons_ne (c : Char) (rest : List Char) (h : c ≠ ' ') :
    splitOnDash (c :: rest) = consHead c (splitOnDash rest) := by
  match rest with
  | [] => simp [splitOnDash, consHead]
  | [c2] => simp [splitOnDash, consHead]
  | c2 :: c3 :: r =>
    rw [splitOnDash]
    rw [if_neg (by rintro ⟨rfl, -, -⟩; exact h rfl)]

/-- `splitOnDash` cuts at a leading separator. -/
theorem splitOnDash_sep (r : List Char) :
    splitOnDash (' ' :: '-' :: ' ' :: r) = [] :: splitOnDash r := by
  rw [splitOnDash, if_pos ⟨rfl, rfl, rfl⟩]

/-- A list containing no space character is returned whole by `splitOnDash`. -/
theorem splitOnDash_no_space (l : List Char) (h : ∀ c ∈ l, c ≠ ' ') :
    splitOnDash l = [l] := by
  induction l with
  | nil => rfl
  | cons c rest ih =>
    rw [splitOnDash_cons_ne c rest (h c (List.mem_cons_self c rest)),
      ih (fun d hd => h d (List.mem_cons_of_mem c hd)), consHead_cons]

/-- `splitOnDash` splits a space-free part followed by the separator. -/
theorem splitOnDash_append (l r : List Char) (h : ∀ c ∈ l, c ≠ ' ') :
    splitOnDash (l ++ ' ' :: '-' :: ' ' :: r) = l :: splitOnDash r := by
  induction l with
  | nil => simpa using splitOnDash_sep r
  | cons c rest ih =>
    rw [List.cons_append,
      splitOnDash_cons_ne c _ (h c (List.mem_cons_self c rest)),
      ih (fun d hd => h d (List.mem_cons_of_mem c hd)), consHead_cons]

/-- `splitOnDash` returns the whole list when no separator occurrence exists. -/
theorem splitOnDash_no_sep (s : List Char)
    (h : ¬ ∃ a b, s = a ++ ' ' :: '-' :: ' ' :: b) : splitOnDash s = [s] := by
  induction s with
  | nil => rfl
  | cons c rest ih =>
    have hc : ¬ (c = ' ' ∧ ∃ b, rest = '-' :: ' ' :: b) := by
      rintro ⟨rfl, b, rfl⟩
      exact h ⟨[], b, rfl⟩
    have hstep : splitOnDash (c :: rest) = consHead c (splitOnDash rest) := by
      match rest with
      | [] => simp [splitOnDash, consHead]
      | [c2] => simp [splitOnDash, consHead]
      | c2 :: c3 :: r =>
        rw [splitOnDash]
        rw [if_neg (by rintro ⟨rfl, rfl, rfl⟩; exact hc ⟨rfl, r, rfl⟩)]
    have hrest : ¬ ∃ a b, rest = a ++ ' ' :: '-' :: ' ' :: b := by
      rintro ⟨a, b, rfl⟩
      exact h ⟨c :: a, b, rfl⟩
    rw [hstep, ih hrest, consHead_cons]

/-- One step of `splitOnColon` on a non-colon head. -/
theorem splitOnColon_cons_ne (c : Char) (rest : List Char) (h : c ≠ ':') :
    splitOnColon (c :: rest) = consHead c (splitOnColon rest) := by
  rw [splitOnColon, if_neg h]

/-- A colon-free list is returned whole by `splitOnColon`. -/
theorem splitOnColon_no_colon (l : List Char) (h : ∀ c ∈ l, c ≠ ':') :
    splitOnColon l = [l] := by
  induction l with
  | nil => rfl
  | cons c rest ih =>
    rw [splitOnColon_cons_ne c rest (h c (List.mem_cons_self c rest)),
      ih (fun d hd => h d (List.mem_cons_of_mem c hd)), consHead_cons]

/-- `splitOnColon` splits a colon-free part followed by a colon. -/
theorem splitOnColon_append (l r : List Char) (h : ∀ c ∈ l, c ≠ ':') :
    splitOnColon (l ++ ':' :: r) = l :: splitOnColon r := by
  induction l with
  | nil => simp [splitOnColon]
  | cons c rest ih =>
    rw [List.cons_append,
      splitOnColon_cons_ne c _ (h c (List.mem_cons_self c rest)),
      ih (fun d hd => h d (List.mem_cons_of_mem c hd)), consHead_cons]

/-- A decimal digit is not a Python whitespace character. -/
theorem digit_not_space (c : Char) (h : c.isDigit = true) :
    pyIsSpace c = false := by
  have h0 : c ≠ ' ' := by rintro rfl; exact absurd h (by decide)
  have h1 : c ≠ '\t' := by rintro rfl; exact absurd h (by decide)
  have h2 : c ≠ '\n' := by rintro rfl; exact absurd h (by decide)
  have h3 : c ≠ '\r' := by rintro rfl; exact absurd h (by decide)
  have h4 : c ≠ '\x0b' := by rintro rfl; exact absurd h (by decide)
  have h5 : c ≠ '\x0c' := by rintro rfl; exact absurd h (by decide)
  simp [pyIsSpace, h0, h1, h2, h3, h4, h5]

theorem digit_ne_space (c : Char) (h : c.isDigit = true) : c ≠ ' ' := by
  rintro rfl; exact absurd h (by decide)

theorem digit_ne_colon (c : Char) (h : c.isDigit = true) : c ≠ ':' := by
  rintro rfl; exact absurd h (by decide)

/-- `dropWhile` is the identity when no element satisfies the predicate. -/
theorem dropWhile_of_none (p : Char → Bool) (l : List Char)
    (h : ∀ c ∈ l, p c = false) : l.dropWhile p = l := by
  cases l with
  | nil => rfl
  | cons c rest => simp [List.dropWhile_cons, h c (List.mem_cons_self c rest)]

/-- `stripChars` is the identity on whitespace-free lists. -/
theorem stripChars_of_no_space (l : List Char)
    (h : ∀ c ∈ l, pyIsSpace c = false) : stripChars l = l := by
  unfold stripChars
  rw [dropWhile_of_none pyIsSpace l h,
    dropWhile_of_none pyIsSpace l.reverse (fun c hc => h c (List.mem_reverse.mp hc)),
    List.reverse_reverse]

/-- `pyInt` on a nonempty all-digit list returns its decimal value. -/
theorem pyInt_digits (l : List Char) (hne : l ≠ [])
    (hd : allDigits l = true) : pyInt l = some (digitsVal l : Int) := by
  have hdall : ∀ c ∈ l, c.isDigit = true := by
    intro c hc
    exact List.all_eq_true.mp hd c hc
  have hstrip : stripChars l = l :=
    stripChars_of_no_space l (fun c hc => digit_not_space c (hdall c hc))
  unfold pyInt
  rw [hstrip]
  match l, hne, hd, hdall with
  | c :: rest, _, hd, hdall =>
    have hcdig : c.isDigit = true := hdall c (List.mem_cons_self c rest)
    have hminus : c ≠ '-' := by rintro rfl; exact absurd hcdig (by decide)
    have hplus : c ≠ '+' := by rintro rfl; exact absurd hcdig (by decide)
    rw [pyIntCore, if_neg hminus, if_neg hplus]
    have hp : parseDigits (c :: rest) = some (digitsVal (c :: rest)) := by
      unfold parseDigits
      rw [if_neg (by simp), if_pos hd]
    rw [hp]

/-- Structurally well-formed game-time strings parse to the value of their
digit groups, with no validation of the half index or the seconds field. -/
theorem parse_game_time_wellformed (d1 d2 d3 : List Char)
    (h1 : d1 ≠ []) (h2 : d2 ≠ []) (h3 : d3 ≠ [])
    (hd1 : allDigits d1 = true) (hd2 : allDigits d2 = true)
    (hd3 : allDigits d3 = true) :
    parse_game_time (d1 ++ ' ' :: '-' :: ' ' :: (d2 ++ ':' :: d3)) =
      some ((digitsVal d1 : Int), (digitsVal d2 : Int) * 60 + (digitsVal d3 : Int)) := by
  have hd1all : ∀ c ∈ d1, c.isDigit = true := fun c hc => List.all_eq_true.mp hd1 c hc
  have hd2all : ∀ c ∈ d2, c.isDigit = true := fun c hc => List.all_eq_true.mp hd2 c hc
  have hd3all : ∀ c ∈ d3, c.isDigit = true := fun c hc => List.all_eq_true.mp hd3 c hc
  have htno : ∀ c ∈ d2 ++ ':' :: d3, c ≠ ' ' := by
    intro c hc
    rcases List.mem_append.mp hc with hc | hc
    · exact digit_ne_space c (hd2all c hc)
    · rcases List.mem_cons.mp hc with rfl | hc
      · decide
      · exact digit_ne_space c (hd3all c hc)
  have hsplit : splitOnDash (d1 ++ ' ' :: '-' :: ' ' :: (d2 ++ ':' :: d3)) =
      [d1, d2 ++ ':' :: d3] := by
    rw [splitOnDash_append d1 _ (fun c hc => digit_ne_space c (hd1all c hc)),
      splitOnDash_no_space _ htno]
  have hstrip : stripChars (d2 ++ ':' :: d3) = d2 ++ ':' :: d3 := by
    apply stripChars_of_no_space
    intro c hc
    rcases List.mem_append.mp hc with hc | hc
    · exact digit_not_space c (hd2all c hc)
    · rcases List.mem_cons.mp hc with rfl | hc
      · decide
      · exact digit_not_space c (hd3all c hc)
  have hcolon : splitOnColon (d2 ++ ':' :: d3) = [d2, d3] := by
    rw [splitOnColon_append d2 d3 (fun c hc => digit_ne_colon c (hd2all c hc)),
      splitOnColon_no_colon d3 (fun c hc => digit_ne_colon c (hd3all c hc))]
  rw [parse_game_time, hsplit]
  rw [pgtParts, pyInt_digits d1 h1 hd1]
  rw [pgtVid, hstrip, hcolon]
  rw [pgtTime, pyInt_digits d2 h2 hd2, pyInt_digits d3 h3 hd3]
  rw [pgtFin]

/-- A game-time string with no occurrence of the separator fails to parse. -/
theorem parse_game_time_no_sep (s : List Char)
    (h : ¬ ∃ a b, s = a ++ ' ' :: '-' :: ' ' :: b) :
    parse_game_time s = none := by
  rw [parse_game_time, splitOnDash_no_sep s h]
  rfl

/-- The characters of `"3 - 00:75"`. -/
def cexC1Str : List Char := ['3', ' ', '-', ' ', '0', '0', ':', '7', '5']

/-- The characters of `"1 - 02:05"`. -/
def wfC1Str : List Char := ['1', ' ', '-', ' ', '0', '2', ':', '0', '5']

/-- The characters of `"0030"`. -/
def sepFreeStr : List Char := ['0', '0', '3', '0']

/-- C1, counterexample: the string `"3 - 00:75"` is not of the claimed valid
form (its half is 3, not in  1, 2 , and its seconds field is 75, not below
60), yet `parse_game_time` returns `(3, 75)` instead of failing — refuting
the claim that every input outside the valid family fails with
`MalformedTimestamp`. -/
theorem claim_C1_cex :
    parse_game_time cexC1Str = some (3, 75) ∧
    ¬ ((3 : Int) = 1 ∨ (3 : Int) = 2) ∧ ¬ ((75 : Int) < 60) := by
  refine ⟨by decide, by decide, by decide⟩

/-- C1, amended: for every structurally well-formed string
`"<digits> - <digits>:<digits>"` the Game-Time Parser returns
`(h, mm*60 + ss)` computed from the digit groups, with no range validation
of the half index or the seconds field; and every string lacking the
`" - "` separator fails (raises). -/
theorem claim_C1 (d1 d2 d3 : List Char)
    (h1 : d1 ≠ []) (h2 : d2 ≠ []) (h3 : d3 ≠ [])
    (hd1 : allDigits d1 = true) (hd2 : allDigits d2 = true)
    (hd3 : allDigits d3 = true) :
    parse_game_time (d1 ++ ' ' :: '-' :: ' ' :: (d2 ++ ':' :: d3)) =
      some ((digitsVal d1 : Int), (digitsVal d2 : Int) * 60 + (digitsVal d3 : Int)) ∧
    ∀ s : List Char, (¬ ∃ a b, s = a ++ ' ' :: '-' :: ' ' :: b) →
      parse_game_time s = none := by
  exact ⟨parse_game_time_wellformed d1 d2 d3 h1 h2 h3 hd1 hd2 hd3,
    fun s hs => parse_game_time_no_sep s hs⟩

/-- C1, witness: `"1 - 02:05"` parses to `(1, 125)` and the separator-free
string `"0030"` fails. -/
theorem claim_C1_witness :
    parse_game_time wfC1Str = some (1, 125) ∧
    parse_game_time sepFreeStr = none := by
  have h := claim_C1 ['1'] ['0', '2'] ['0', '5'] (by decide) (by decide)
    (by decide) (by decide) (by decide) (by decide)
  constructor
  · exact h.1
  · refine h.2 sepFreeStr ?_
    rintro ⟨a, b, hab⟩
    have hsp : ' ' ∈ sepFreeStr := by rw [hab]; simp
    revert hsp
    decide

/-! ## Event records and the Clip Window Resolver

Event records are the JSON objects of the annotation document; a field
set to `none` models an absent key (`ev["k"]` raises `KeyError`,
`ev.get("k", d)` yields the default). -/

structure Event where
  gameTime : Option (List Char)
  label : Option (List Char)
  team : Option (List Char)
  visibility : Option (List Char)
deriving DecidableEq

/-- The characters of `"goal"`. -/
def goalL : List Char := ['g', 'o', 'a', 'l']

/-- The characters of `"kick-off"`. -/
def kickoffL : List Char := ['k', 'i', 'c', 'k', '-', 'o', 'f', 'f']

/-- The characters of `"visible"`. -/
def visibleL : List Char := ['v', 'i', 's', 'i', 'b', 'l', 'e']

/-- The characters of `"not shown"`. -/
def notShownL : List Char := ['n', 'o', 't', ' ', 's', 'h', 'o', 'w', 'n']

/-- The characters of `"Goal"`. -/
def goalCapL : List Char := ['G', 'o', 'a', 'l']

/-- The characters of `"Kick-off"`. -/
def kickCapL : List Char := ['K', 'i', 'c', 'k', '-', 'o', 'f', 'f']

/-- The characters of `"home"`. -/
def homeL : List Char := ['h', 'o', 'm', 'e']

/-- The characters of `"1 - 00:30"`. -/
def gtGoalA : List Char := ['1', ' ', '-', ' ', '0', '0', ':', '3', '0']

/-- The characters of `"1 - 00:45"`. -/
def gtKickA : List Char := ['1', ' ', '-', ' ', '0', '0', ':', '4', '5']

/-- The characters of `"1 - 10:00"`. -/
def gtGoalB : List Char := ['1', ' ', '-', ' ', '1', '0', ':', '0', '0']

/-- The characters of `"1 - 00:05"`. -/
def gtKickB : List Char := ['1', ' ', '-', ' ', '0', '0', ':', '0', '5']

/-- The characters of `"bad"`. -/
def gtBad : List Char := ['b', 'a', 'd']

/-- A visible goal event at `"1 - 00:30"` for team `"home"`. -/
def evGoalA : Event := ⟨some gtGoalA, some goalCapL, some homeL, some visibleL⟩

/-- A visible kick-off event at `"1 - 00:45"`. -/
def evKickVisA : Event := ⟨some gtKickA, some kickCapL, none, some visibleL⟩

/-- A visible kick-off event with a corrupt game time. -/
def evKickBad : Event := ⟨some gtBad, some kickCapL, none, some visibleL⟩

/-- A kick-off event at `"1 - 00:45"` that is `"not shown"`. -/
def evKickNS : Event := ⟨some gtKickA, some kickCapL, none, some notShownL⟩

/-- A visible goal event at `"1 - 10:00"` for team `"home"`. -/
def evGoalB : Event := ⟨some gtGoalB, some goalCapL, some homeL, some visibleL⟩

/-- A visible kick-off event at `"1 - 00:05"`, annotated earlier than
`evGoalB`. -/
def evKickVisB : Event := ⟨some gtKickB, some kickCapL, none, some visibleL⟩

/-- The kick-off lookahead of `GoalClipExtractor.determine_clip_times`
(goal_clip_extractor.py lines 62-69): if the immediately following event
has label `"kick-off"` and visibility `"visible"` (both compared after
`.lower()`), replace the default end by that event's parsed seconds; any
exception inside the `try` (missing `gameTime` key, parse failure) keeps
the default. -/
def dctEnd (defEnd : Int) (anns : List Event) (goalIdx : Nat) : Int :=
  match anns.get? (goalIdx + 1) with
  | none => defEnd
  | some nextAnn =>
    if pyLower (nextAnn.label.getD []) = kickoffL ∧
        pyLower (nextAnn.visibility.getD []) = visibleL then
      match nextAnn.gameTime with
      | none => defEnd
      | some ngts =>
        match parse_game_time ngts with
        | none => defEnd
        | some p => p.2
    else defEnd

/-- `GoalClipExtractor.determine_clip_times` (goal_clip_extractor.py lines
53-71).  Returns `(video_idx, start_sec, end_sec)`; `none` models a raised
exception (missing goal index, missing `gameTime` key, or parse failure of
the goal's own game time). -/
def determine_clip_times (sb sa : Int) (anns : List Event) (goalIdx : Nat) :
    Option (Int × Int × Int) :=
  match anns.get? goalIdx with
  | none => none
  | some goal =>
    match goal.gameTime with
    | none => none
    | some gts =>
      match parse_game_time gts with
      | none => none
      | some p => some (p.1, max 0 (p.2 - sb), dctEnd (p.2 + sa) anns goalIdx)

/-- `pyLower` fixes the lowercase literal `"visible"`. -/
theorem pyLower_visibleL : pyLower visibleL = visibleL := by decide

/-- C2: when the event immediately after the goal has label `"Kick-off"`
(case-insensitively) and visibility `"visible"`, the resolved end is that
kick-off's parsed seconds, for every configured secondsAfter; and when the
kick-off's game time is missing or unparsable the default end
`goalSec + secondsAfter` is silently kept. -/
theorem claim_C2 (sb sa : Int) (anns : List Event) (gi : Nat) (goal : Event)
    (gts : List Char) (v gsec : Int) (nx : Event)
    (hg : anns.get? gi = some goal) (hgt : goal.gameTime = some gts)
    (hp : parse_game_time gts = some (v, gsec))
    (hn : anns.get? (gi + 1) = some nx)
    (hl : pyLower (nx.label.getD []) = kickoffL)
    (hv : nx.visibility = some visibleL) :
    (∀ ngts v2 ksec, nx.gameTime = some ngts →
      parse_game_time ngts = some (v2, ksec) →
      determine_clip_times sb sa anns gi = some (v, max 0 (gsec - sb), ksec)) ∧
    (∀ ngts, nx.gameTime = some ngts → parse_game_time ngts = none →
      determine_clip_times sb sa anns gi =
        some (v, max 0 (gsec - sb), gsec + sa)) ∧
    (nx.gameTime = none →
      determine_clip_times sb sa anns gi =
        some (v, max 0 (gsec - sb), gsec + sa)) := by
  have hvl : pyLower (nx.visibility.getD []) = visibleL := by
    rw [hv]
    exact pyLower_visibleL
  refine ⟨?_, ?_, ?_⟩
  · intro ngts v2 ksec hngt hnp
    simp only [determine_clip_times, hg, hgt, hp, dctEnd, hn, hl, hvl, hngt,
      hnp, and_self, if_true]
  · intro ngts hngt hnp
    simp only [determine_clip_times, hg, hgt, hp, dctEnd, hn, hl, hvl, hngt,
      hnp, and_self, if_true]
  · intro hngt
    simp only [determine_clip_times, hg, hgt, hp, dctEnd, hn, hl, hvl, hngt,
      and_self, if_true]

/-- C2, witness: a goal at `"1 - 00:30"` followed by a visible kick-off at
`"1 - 00:45"` (config 20 before / 60 after) resolves to the window
`(1, 10, 45)`; with the kick-off's game time corrupted, to `(1, 10, 90)`. -/
theorem claim_C2_witness :
    determine_clip_times 20 60 [evGoalA, evKickVisA] 0 = some (1, 10, 45) ∧
    determine_clip_times 20 60 [evGoalA, evKickBad] 0 = some (1, 10, 90) := by
  constructor
  · have h := claim_C2 20 60 [evGoalA, evKickVisA] 0 evGoalA gtGoalA 1 30
      evKickVisA (by decide) (by decide) (by decide) (by decide) (by decide)
      (by decide)
    exact h.1 gtKickA 1 45 (by decide) (by decide)
  · have h := claim_C2 20 60 [evGoalA, evKickBad] 0 evGoalA gtGoalA 1 30
      evKickBad (by decide) (by decide) (by decide) (by decide) (by decide)
      (by decide)
    exact h.2.1 gtBad (by decide) (by decide)

/-- C3: when the goal event is not immediately followed by a visible
kick-off (no next event, or the next event fails the label/visibility
test, e.g. a kick-off that is `"not shown"`), the resolved end is exactly
`goalSec + secondsAfter`; and in every successful resolution the start is
`max 0 (goalSec - secondsBefore)`, which is nonnegative. -/
theorem claim_C3 (sb sa : Int) (anns : List Event) (gi : Nat) (goal : Event)
    (gts : List Char) (v gsec : Int)
    (hg : anns.get? gi = some goal) (hgt : goal.gameTime = some gts)
    (hp : parse_game_time gts = some (v, gsec)) :
    (anns.get? (gi + 1) = none →
      determine_clip_times sb sa anns gi =
        some (v, max 0 (gsec - sb), gsec + sa)) ∧
    (∀ nx, anns.get? (gi + 1) = some nx →
      ¬ (pyLower (nx.label.getD []) = kickoffL ∧
          pyLower (nx.visibility.getD []) = visibleL) →
      determine_clip_times sb sa anns gi =
        some (v, max 0 (gsec - sb), gsec + sa)) ∧
    (∀ v' s e, determine_clip_times sb sa anns gi = some (v', s, e) →
      s = max 0 (gsec - sb) ∧ 0 ≤ s) := by
  refine ⟨?_, ?_, ?_⟩
  · intro hn
    simp only [determine_clip_times, hg, hgt, hp, dctEnd, hn]
  · intro nx hn hcond
    simp only [determine_clip_times, hg, hgt, hp, dctEnd, hn, if_neg hcond]
  · intro v' s e hres
    simp only [determine_clip_times, hg, hgt, hp, Option.some.injEq,
      Prod.mk.injEq] at hres
    refine ⟨hres.2.1.symm, ?_⟩
    rw [← hres.2.1]
    exact le_max_left 0 (gsec - sb)

/-- C3, witness: a goal at `"1 - 00:30"` followed by a kick-off that is
`"not shown"` (config 20 before / 60 after) resolves to `(1, 10, 90)`, and
the resolved start 10 matches `max 0 (30 - 20)` and is nonnegative. -/
theorem claim_C3_witness :
    determine_clip_times 20 60 [evGoalA, evKickNS] 0 = some (1, 10, 90) ∧
    (10 : Int) = max 0 (30 - 20) ∧ (0 : Int) ≤ 10 := by
  have h := claim_C3 20 60 [evGoalA, evKickNS] 0 evGoalA gtGoalA 1 30
    (by decide) (by decide) (by decide)
  have h2 := h.2.1 evKickNS (by decide) (by decide)
  exact ⟨by rw [h2]; decide, by decide, by decide⟩

/-- C6, counterexample: a goal at `"1 - 10:00"` (600 s) immediately followed
by a visible kick-off annotated at `"1 - 00:05"` (5 s) resolves, under the
default config (20 before / 60 after), to the window `(1, 580, 5)` — whose
end is not greater than its start, refuting the claimed Clip Window
invariant `endSeconds > startSeconds`. -/
theorem claim_C6_cex :
    determine_clip_times 20 60 [evGoalB, evKickVisB] 0 = some (1, 580, 5) ∧
    ¬ ((580 : Int) < 5) := by
  exact ⟨by decide, by decide⟩

/-- The kick-off override of `determine_clip_times` keeps the default end
whenever no immediately following visible kick-off parses. -/
theorem dctEnd_default (d : Int) (anns : List Event) (gi : Nat)
    (hno : ∀ nx, anns.get? (gi + 1) = some nx →
      pyLower (nx.label.getD []) = kickoffL →
      pyLower (nx.visibility.getD []) = visibleL →
      ∀ ngts, nx.gameTime = some ngts →
      ∀ p, parse_game_time ngts ≠ some p) :
    dctEnd d anns gi = d := by
  cases hn : anns.get? (gi + 1) with
  | none => simp only [dctEnd, hn]
  | some nx =>
    by_cases hc : pyLower (nx.label.getD []) = kickoffL ∧
        pyLower (nx.visibility.getD []) = visibleL
    · cases hngt : nx.gameTime with
      | none => simp only [dctEnd, hn, if_pos hc, hngt]
      | some ngts =>
        cases hpp : parse_game_time ngts with
        | none => simp only [dctEnd, hn, if_pos hc, hngt, hpp]
        | some p => exact absurd hpp (hno nx hn hc.1 hc.2 ngts hngt p)
    · simp only [dctEnd, hn, if_neg hc]

/-- C6, amended: every successful resolution — kick-off override or not —
has a nonnegative start, because the start is always
`max 0 (goalSec - secondsBefore)`; and under a nonnegative secondsBefore,
a positive secondsAfter, a nonnegative parsed goal second and no
applicable visible kick-off override, the resolved window also satisfies
`endSeconds > startSeconds`.  (A visible kick-off annotated at or before
the start of the window may produce `end ≤ start`, as the counterexample
shows.) -/
theorem claim_C6 (sb sa : Int) (anns : List Event) (gi : Nat) :
    (∀ v s e, determine_clip_times sb sa anns gi = some (v, s, e) →
      0 ≤ s) ∧
    (∀ goal gts v gsec, 0 ≤ sb → 0 < sa → 0 ≤ gsec →
      anns.get? gi = some goal → goal.gameTime = some gts →
      parse_game_time gts = some (v, gsec) →
      (∀ nx, anns.get? (gi + 1) = some nx →
        pyLower (nx.label.getD []) = kickoffL →
        pyLower (nx.visibility.getD []) = visibleL →
        ∀ ngts, nx.gameTime = some ngts →
        ∀ p, parse_game_time ngts ≠ some p) →
      determine_clip_times sb sa anns gi =
        some (v, max 0 (gsec - sb), gsec + sa) ∧
      max 0 (gsec - sb) < gsec + sa) := by
  constructor
  · intro v s e h
    cases hg : anns.get? gi with
    | none =>
      simp only [determine_clip_times, hg] at h
      exact Option.noConfusion h
    | some goal =>
      cases hgt : goal.gameTime with
      | none =>
        simp only [determine_clip_times, hg, hgt] at h
        exact Option.noConfusion h
      | some gts =>
        cases hp : parse_game_time gts with
        | none =>
          simp only [determine_clip_times, hg, hgt, hp] at h
          exact Option.noConfusion h
        | some p =>
          simp only [determine_clip_times, hg, hgt, hp, Option.some.injEq,
            Prod.mk.injEq] at h
          rw [← h.2.1]
          exact le_max_left 0 (p.2 - sb)
  · intro goal gts v gsec hsb hsa hgsec hg hgt hp hno
    refine ⟨?_, max_lt (by omega) (by omega)⟩
    simp only [determine_clip_times, hg, hgt, hp, dctEnd_default _ anns gi hno]

/-- C6, witness: the override window `(1, 580, 5)` of the counterexample
still has a nonnegative start; and a lone goal at `"1 - 00:30"` with
config 20 before / 60 after resolves to `(1, 10, 90)` with `10 < 90`. -/
theorem claim_C6_witness :
    (0 : Int) ≤ 580 ∧
    (determine_clip_times 20 60 [evGoalA] 0 =
        some (1, max 0 (30 - 20), 30 + 60) ∧
      max 0 ((30 : Int) - 20) < 30 + 60) := by
  refine ⟨(claim_C6 20 60 [evGoalB, evKickVisB] 0).1 1 580 5 (by decide), ?_⟩
  exact (claim_C6 20 60 [evGoalA] 0).2 evGoalA gtGoalA 1 30 (by decide)
    (by decide) (by decide) (by decide) (by decide) (by decide)
    (by intro nx h; simp at h)

/-! ## Clip names, goal ordinals, and the Match Walker

`GoalClipExtractor.generate_clip_name`, `extract_goal_annotations`,
`handle_single_goal`, `process_folder` and `run`
(goal_clip_extractor.py lines 49-51, 73-77, 110-174). -/

/-- The characters of `"unknown"`. -/
def unknownL : List Char := ['u', 'n', 'k', 'n', 'o', 'w', 'n']

/-- The characters of `".mp4"`. -/
def mp4ExtL : List Char := ['.', 'm', 'p', '4']

/-- `gameTime.replace(" ", "_").replace(":", "-")`: single-character
substring replacement is a character map. -/
def sanitizeTime (l : List Char) : List Char :=
  (l.map (fun c => if c = ' ' then '_' else c)).map
    (fun c => if c = ':' then '-' else c)

/-- `GoalClipExtractor.generate_clip_name` (lines 73-77):
`f"SAFETIME_TEAM_goalNUM.mp4"`; `none` models the `KeyError` raised when
the event lacks a `gameTime` key. -/
def generate_clip_name (goal : Event) (clipNum : Nat) : Option (List Char) :=
  match goal.gameTime with
  | none => none
  | some gt =>
    some (sanitizeTime gt ++ '_' :: goal.team.getD unknownL ++
      '_' :: goalL ++ Nat.toDigits 10 clipNum ++ mp4ExtL)

/-- The comprehension
`[i for i, ann in enumerate(annotations) if ann.get("label", "").lower() == "goal"]`,
unrolled with its running index. -/
def goalIdxAux : List Event → Nat → List Nat
  | [], _ => []
  | a :: rest, i =>
    if pyLower (a.label.getD []) = goalL then i :: goalIdxAux rest (i + 1)
    else goalIdxAux rest (i + 1)

/-- `GoalClipExtractor.extract_goal_annotations` (lines 49-51). -/
def extract_goal_annotations (anns : List Event) : List Nat :=
  goalIdxAux anns 0

/-- Whether the event at position `i` carries the (case-insensitive)
label `"goal"`. -/
def isGoalAt (anns : List Event) (i : Nat) : Bool :=
  match anns.get? i with
  | some a => pyLower (a.label.getD []) == goalL
  | none => false

/-- The spec's description of goal ordinals: the positions, in increasing
order, of the events whose label (case-insensitively) equals `"goal"`. -/
def goalPositionsSpec (anns : List Event) : List Nat :=
  (List.range anns.length).filter (isGoalAt anns)

/-- Outcome of `handle_single_goal` for one goal index: skipped with a
warning, or a cut clip with its name and window. -/
inductive GoalOutcome where
  | skippedBadTime
  | skippedNoVideo
  | clip (name : List Char) (half startSec endSec : Int)
deriving DecidableEq

/-- `GoalClipExtractor.handle_single_goal` (lines 110-134): the `try`
around `determine_clip_times` turns a bad game time into a skip; a missing
half video is a skip; otherwise the clip is produced.  (The cut itself and
the frame extraction are downstream I/O, not part of the outcome shape.) -/
def handle_single_goal (sb sa : Int) (videoDict : Int → Bool)
    (anns : List Event) (goalIdx : Nat) (clipNum : Nat) : GoalOutcome :=
  match determine_clip_times sb sa anns goalIdx with
  | none => .skippedBadTime
  | some (vidIdx, s, e) =>
    if videoDict vidIdx = false then .skippedNoVideo
    else
      match anns.get? goalIdx with
      | none => .skippedBadTime
      | some goal =>
        match generate_clip_name goal clipNum with
        | none => .skippedBadTime
        | some nm => .clip nm vidIdx s e

/-- One match folder as the walker sees it: whether any half video was
found, which half indices map to a usable video file, whether an
annotation file exists, and — when it exists — the parsed annotation
document (`none` models a `json.load`/`open` raise). -/
structure Folder where
  hasVideo : Bool
  videoDict : Int → Bool
  annPresent : Bool
  annDoc : Option (List Event)

/-- Result of `process_folder` on one folder. -/
inductive FolderResult where
  | noVideo
  | noAnnFile
  | processed (outcomes : List GoalOutcome)

/-- `GoalClipExtractor.process_folder` (lines 136-160).  `Except.error ()`
models an exception escaping the function: the call to
`load_annotations` (lines 43-47, a bare `open` + `json.load`) is NOT
wrapped in any `try`, so a failing load propagates. -/
def process_folder (sb sa : Int) (f : Folder) : Except Unit FolderResult :=
  if f.hasVideo = false then .ok .noVideo
  else if f.annPresent = false then .ok .noAnnFile
  else
    match f.annDoc with
    | none => .error ()
    | some anns =>
      .ok (.processed ((extract_goal_annotations anns).enum.map
        (fun p => handle_single_goal sb sa f.videoDict anns p.2 (p.1 + 1))))

/-- `GoalClipExtractor.run` (lines 162-174): the folder loop has no
`try`/`except`, so the first folder whose processing raises aborts the
whole walk. -/
def runWalk (sb sa : Int) : List Folder → Except Unit (List FolderResult)
  | [] => .ok []
  | f :: rest =>
    match process_folder sb sa f with
    | .error e => .error e
    | .ok r =>
      match runWalk sb sa rest with
      | .error e => .error e
      | .ok rs => .ok (r :: rs)

/-- A folder whose annotation file is present but fails to load. -/
def badFolder : Folder := ⟨true, fun _ => true, true, none⟩

/-- A folder with a loadable, empty annotation document. -/
def goodFolder : Folder := ⟨true, fun _ => true, true, some []⟩

/-- A goal event whose game time does not parse. -/
def evBadGoal : Event := ⟨some gtBad, some goalCapL, none, none⟩

/-- Two goal events: the first has an unparsable game time. -/
def demoAnns : List Event := [evBadGoal, evGoalA]

/-- A folder whose annotation document holds `demoAnns`. -/
def demoFolder : Folder := ⟨true, fun _ => true, true, some demoAnns⟩

/-- C5, counterexample: a folder whose annotation document fails to load
makes the whole walk abort with an uncaught exception — the following
folder (which on its own processes fine) is never reached — refuting the
claim that per-folder failures are caught and do not stop the walk. -/
theorem claim_C5_cex :
    runWalk 20 60 [badFolder, goodFolder] = .error () ∧
    process_folder 20 60 goodFolder = .ok (.processed []) := ⟨rfl, rfl⟩

/-- C5, amended: within one folder the goal loop is exception-free — every
goal position yields an outcome, an unparsable goal event only skips
itself — but an exception raised while loading a folder's annotation
document propagates out of `run` and aborts the walk over the remaining
folders. -/
theorem claim_C5 (sb sa : Int) (f : Folder) (anns : List Event)
    (hv : f.hasVideo = true) (ha : f.annPresent = true) :
    (f.annDoc = some anns →
      ∃ outs, process_folder sb sa f = .ok (.processed outs) ∧
        outs.length = (extract_goal_annotations anns).length ∧
        ∀ k gi, (extract_goal_annotations anns).get? k = some gi →
          outs.get? k =
            some (handle_single_goal sb sa f.videoDict anns gi (k + 1))) ∧
    (f.annDoc = none → ∀ rest, runWalk sb sa (f :: rest) = .error ()) := by
  constructor
  · intro hdoc
    refine ⟨(extract_goal_annotations anns).enum.map
      (fun p => handle_single_goal sb sa f.videoDict anns p.2 (p.1 + 1)),
      ?_, ?_, ?_⟩
    · simp only [process_folder, hv, ha, hdoc]
      rw [if_neg (by decide), if_neg (by decide)]
    · rw [List.length_map, List.enum_length]
    · intro k gi hk
      rw [List.get?_map, List.get?_enum, hk]
      rfl
  · intro hdoc rest
    have hpf : process_folder sb sa f = .error () := by
      simp only [process_folder, hv, ha, hdoc]
      rw [if_neg (by decide), if_neg (by decide)]
    simp only [runWalk, hpf]

/-- C5, witness: in a folder holding a bad goal followed by a good goal,
processing yields one outcome per goal (the bad one merely skipped); and a
folder with an unloadable annotation document aborts the walk. -/
theorem claim_C5_witness :
    (∃ outs, process_folder 20 60 demoFolder = .ok (.processed outs) ∧
      outs.length = (extract_goal_annotations demoAnns).length ∧
      ∀ k gi, (extract_goal_annotations demoAnns).get? k = some gi →
        outs.get? k =
          some (handle_single_goal 20 60 demoFolder.videoDict demoAnns gi
            (k + 1))) ∧
    runWalk 20 60 [badFolder] = .error () :=
  ⟨(claim_C5 20 60 demoFolder demoAnns rfl rfl).1 rfl,
    (claim_C5 20 60 badFolder [] rfl rfl).2 rfl []⟩

/-- `isGoalAt` on a cons at a successor index looks into the tail. -/
theorem isGoalAt_cons_succ (a : Event) (rest : List Event) (i : Nat) :
    isGoalAt (a :: rest) (i + 1) = isGoalAt rest i := by
  simp [isGoalAt]

/-- `isGoalAt` on a cons at index zero tests the head's label. -/
theorem isGoalAt_cons_zero (a : Event) (rest : List Event) :
    isGoalAt (a :: rest) 0 = (pyLower (a.label.getD []) == goalL) := by
  simp [isGoalAt]

/-- The comprehension with running start index `n` lists the goal
positions shifted by `n`. -/
theorem goalIdxAux_eq_spec (anns : List Event) :
    ∀ n, goalIdxAux anns n = (goalPositionsSpec anns).map (fun i => i + n) := by
  induction anns with
  | nil => intro n; rfl
  | cons a rest ih =>
    intro n
    have hspec : goalPositionsSpec (a :: rest) =
        if isGoalAt (a :: rest) 0 then 0 :: (goalPositionsSpec rest).map Nat.succ
        else (goalPositionsSpec rest).map Nat.succ := by
      unfold goalPositionsSpec
      rw [List.length_cons, List.range_succ_eq_map, List.filter_cons,
        List.filter_map]
      congr 2
    by_cases hgl : pyLower (a.label.getD []) = goalL
    · have hb : isGoalAt (a :: rest) 0 = true := by
        rw [isGoalAt_cons_zero]
        exact beq_iff_eq.mpr hgl
      rw [goalIdxAux, if_pos hgl, ih (n + 1), hspec, hb, if_pos rfl,
        List.map_cons, List.map_map]
      refine congrArg₂ _ (Nat.zero_add n).symm ?_
      exact List.map_congr_left (fun i _ => by
        simp only [Function.comp_apply, Nat.succ_eq_add_one]
        omega)
    · have hb : isGoalAt (a :: rest) 0 = false := by
        rw [isGoalAt_cons_zero]
        exact beq_eq_false_iff_ne.mpr hgl
      rw [goalIdxAux, if_neg hgl, ih (n + 1), hspec, hb, if_neg (by simp),
        List.map_map]
      exact List.map_congr_left (fun i _ => by
        simp only [Function.comp_apply, Nat.succ_eq_add_one]
        omega)

/-- C7: the goal ordinal assignment and the clip file names are a pure
function of the fixed annotation document and configuration.  (a) A clip
name depends only on the event's `gameTime` and `team` fields and the
ordinal; (b) the code's goal indices are exactly the positions, in
document order, of the `"goal"`-labeled events, so the 1-based ordinal of
a goal is its 1-based position among them; (c) within a processed folder
the outcome at position `k` is the handling of the `k`-th goal index with
ordinal `k + 1`. -/
theorem claim_C7 :
    (∀ e1 e2 : Event, ∀ n : Nat, e1.gameTime = e2.gameTime →
      e1.team = e2.team →
      generate_clip_name e1 n = generate_clip_name e2 n) ∧
    (∀ anns : List Event,
      extract_goal_annotations anns = goalPositionsSpec anns) ∧
    (∀ sb sa vd anns k gi outs,
      (extract_goal_annotations anns).get? k = some gi →
      process_folder sb sa ⟨true, vd, true, some anns⟩ =
        .ok (.processed outs) →
      outs.get? k = some (handle_single_goal sb sa vd anns gi (k + 1))) := by
  refine ⟨?_, ?_, ?_⟩
  · intro e1 e2 n h1 h2
    unfold generate_clip_name
    rw [h1, h2]
  · intro anns
    rw [extract_goal_annotations, goalIdxAux_eq_spec anns 0]
    exact (List.map_congr_left (fun i _ => rfl)).trans (List.map_id _)
  · intro sb sa vd anns k gi outs hk hpf
    have hout : outs = (extract_goal_annotations anns).enum.map
        (fun p => handle_single_goal sb sa vd anns p.2 (p.1 + 1)) := by
      have heq : process_folder sb sa ⟨true, vd, true, some anns⟩ =
          .ok (.processed ((extract_goal_annotations anns).enum.map
            (fun p => handle_single_goal sb sa vd anns p.2 (p.1 + 1)))) := by
        simp only [process_folder]
        rw [if_neg (by decide), if_neg (by decide)]
      rw [heq] at hpf
      injection hpf with hpf
      injection hpf with hpf
      exact hpf.symm
    rw [hout, List.get?_map, List.get?_enum, hk]
    rfl

/-- The outcomes of processing `demoAnns` with every half video present. -/
def demoOuts : List GoalOutcome :=
  (extract_goal_annotations demoAnns).enum.map
    (fun p => handle_single_goal 20 60 (fun _ => true) demoAnns p.2 (p.1 + 1))

/-- C7, witness: names coincide for events agreeing on `gameTime` and
`team`; in `demoAnns` (two goal-labeled events) the code's goal indices
equal the spec's goal positions; and outcome 1 of the processed demo
folder handles goal index 1 with ordinal 2. -/
theorem claim_C7_witness :
    generate_clip_name evGoalA 1 =
      generate_clip_name ⟨some gtGoalA, none, some homeL, none⟩ 1 ∧
    extract_goal_annotations demoAnns = goalPositionsSpec demoAnns ∧
    demoOuts.get? 1 =
      some (handle_single_goal 20 60 (fun _ => true) demoAnns 1 2) :=
  ⟨claim_C7.1 evGoalA ⟨some gtGoalA, none, some homeL, none⟩ 1 rfl rfl,
    claim_C7.2.1 demoAnns,
    claim_C7.2.2 20 60 (fun _ => true) demoAnns 1 1 demoOuts (by decide) rfl⟩

/-! ## The Clip Cutter

`GoalClipExtractor.cut_clip` exists in two variants:
goal_clip_and_frame_extraction.py lines 62-92 (with the
`min(..., total_frames - 1)` clamp) and goal_clip_extractor.py lines
79-108 (without it).  A cv2 capture is modelled by an `opened` flag, the
reported fps and frame count, and the sequence of actually decodable
frames; frames are identified by natural numbers. -/

structure Video where
  opened : Bool
  fps : ℚ
  frameCount : Int
  frames : List Nat

/-- Python `int()` on a numeric value: truncation toward zero. -/
def pyTrunc (q : ℚ) : Int := if 0 ≤ q then ⌊q⌋ else -⌊-q⌋

/-- The read loop `for _ in range(a, b + 1): ret, frame = cap.read(); if
not ret: break; out.write(frame)`: at most `n` reads starting at frame
position `pos`, stopping at the first failed read. -/
def readFrames (frames : List Nat) : Nat → Nat → List Nat
  | _, 0 => []
  | pos, n + 1 =>
    match frames.get? pos with
    | none => []
    | some f => f :: readFrames frames (pos + 1) n

/-- `cut_clip` of goal_clip_and_frame_extraction.py (lines 62-92):
`start_frame = int(fps * start_sec)`,
`end_frame = min(int(fps * end_sec), int(total_frames) - 1)`, seek, then
the bounded read loop.  `none` models returning `False` (unopenable
source); `some ws` models returning `True` after writing the frames
`ws`. -/
def cut_clip (v : Video) (startSec endSec : ℚ) : Option (List Nat) :=
  if v.opened = false then none
  else
    some (readFrames v.frames (pyTrunc (v.fps * startSec)).toNat
      (min (pyTrunc (v.fps * endSec)) (v.frameCount - 1) + 1 -
        pyTrunc (v.fps * startSec)).toNat)

/-- `cut_clip` of goal_clip_extractor.py (lines 79-108): identical except
that `end_frame = int(fps * end_sec)` with no total-frame clamp. -/
def cut_clip_x (v : Video) (startSec endSec : ℚ) : Option (List Nat) :=
  if v.opened = false then none
  else
    some (readFrames v.frames (pyTrunc (v.fps * startSec)).toNat
      (pyTrunc (v.fps * endSec) + 1 - pyTrunc (v.fps * startSec)).toNat)

/-- The Clip Cutter as the spec words it (claim C4): frame indices from
`round(fps * startSeconds)` through
`min(round(fps * endSeconds), totalFrames - 1)` inclusive. -/
def cut_clip_spec (v : Video) (startSec endSec : ℚ) : Option (List Nat) :=
  if v.opened = false then none
  else
    some (readFrames v.frames (round (v.fps * startSec)).toNat
      (min (round (v.fps * endSec)) (v.frameCount - 1) + 1 -
        round (v.fps * startSec)).toNat)

/-- The bounded read loop yields a contiguous slice of the frame list. -/
theorem readFrames_eq (frames : List Nat) :
    ∀ n pos, readFrames frames pos n = (frames.drop pos).take n := by
  intro n
  induction n with
  | zero => intro pos; simp [readFrames]
  | succ n ih =>
    intro pos
    cases hp : frames.get? pos with
    | none =>
      have hlen : frames.length ≤ pos := List.get?_eq_none.mp hp
      rw [readFrames, hp, List.drop_eq_nil_of_le hlen, List.take_nil]
    | some f =>
      have hlt : pos < frames.length := by
        by_contra hge
        rw [List.get?_eq_none.mpr (le_of_not_lt hge)] at hp
        exact Option.noConfusion hp
      have hdrop : frames.drop pos = f :: frames.drop (pos + 1) := by
        rw [List.drop_eq_getElem_cons hlt]
        congr 1
        have := List.get?_eq_getElem? frames pos
        rw [hp] at this
        exact (List.getElem?_eq_some.mp this.symm).2
      rw [readFrames, hp, ih (pos + 1), hdrop, List.take_succ_cons]

/-- A readable 5-frame video reporting fps 1.5 and 5 total frames. -/
def cexVid : Video := ⟨true, 3 / 2, 5, [10, 11, 12, 13, 14]⟩

/-- C4, counterexample: cutting `cexVid` from second 0 to second 1, the
code computes `end_frame = int(1.5) = 1` (truncation) and writes the two
frames `[10, 11]`, while the claimed formula `min(round(1.5), 4) = 2`
would copy the three frames `[10, 11, 12]`. -/
theorem claim_C4_cex :
    cut_clip cexVid 0 1 = some [10, 11] ∧
    cut_clip_spec cexVid 0 1 = some [10, 11, 12] ∧
    some [10, 11] ≠ some [10, 11, 12] := by
  have h0 : (3 / 2 : ℚ) * 0 = 0 := by norm_num
  have h1 : (3 / 2 : ℚ) * 1 = 3 / 2 := by norm_num
  have ht0 : pyTrunc 0 = 0 := by rw [pyTrunc]; norm_num
  have ht1 : pyTrunc (3 / 2) = 1 := by
    rw [pyTrunc, if_pos (by norm_num)]
    norm_num
  have hr0 : round ((0 : ℚ)) = 0 := by norm_num
  have hr1 : round ((3 / 2 : ℚ)) = 2 := by norm_num [round_eq]
  refine ⟨?_, ?_, by decide⟩
  · show some (readFrames cexVid.frames (pyTrunc ((3 / 2 : ℚ) * 0)).toNat
      (min (pyTrunc ((3 / 2 : ℚ) * 1)) ((5 : Int) - 1) + 1 -
        pyTrunc ((3 / 2 : ℚ) * 0)).toNat) = some [10, 11]
    rw [h0, h1, ht0, ht1]
    decide
  · show some (readFrames cexVid.frames (round ((3 / 2 : ℚ) * 0)).toNat
      (min (round ((3 / 2 : ℚ) * 1)) ((5 : Int) - 1) + 1 -
        round ((3 / 2 : ℚ) * 0)).toNat) = some [10, 11, 12]
    rw [h0, h1, hr0, hr1]
    decide

/-- C4, amended: on a readable source both cutters copy the contiguous
slice of decodable frames starting at `int(fps * startSeconds)`
(truncation, not rounding); the goal_clip_and_frame_extraction.py variant
bounds the last copied index by `min(int(fps * endSeconds),
totalFrames - 1)`, while the goal_clip_extractor.py variant uses
`int(fps * endSeconds)` with no total-frame clamp; a failing read ends the
copy early in either case. -/
theorem claim_C4 (v : Video) (s e : ℚ) (hop : v.opened = true) :
    cut_clip v s e =
      some ((v.frames.drop (pyTrunc (v.fps * s)).toNat).take
        (min (pyTrunc (v.fps * e)) (v.frameCount - 1) + 1 -
          pyTrunc (v.fps * s)).toNat) ∧
    cut_clip_x v s e =
      some ((v.frames.drop (pyTrunc (v.fps * s)).toNat).take
        (pyTrunc (v.fps * e) + 1 - pyTrunc (v.fps * s)).toNat) := by
  have hno : ¬ v.opened = false := by rw [hop]; decide
  constructor
  · rw [cut_clip, if_neg hno, readFrames_eq]
  · rw [cut_clip_x, if_neg hno, readFrames_eq]

/-- C4, witness: the amended statement instantiated on a concrete
4-frame video at fps 2, cutting seconds 0 to 1. -/
theorem claim_C4_witness :
    cut_clip ⟨true, 2, 4, [5, 6, 7, 8]⟩ 0 1 =
      some ((([5, 6, 7, 8] : List Nat).drop (pyTrunc ((2 : ℚ) * 0)).toNat).take
        (min (pyTrunc ((2 : ℚ) * 1)) ((4 : Int) - 1) + 1 -
          pyTrunc ((2 : ℚ) * 0)).toNat) ∧
    cut_clip_x ⟨true, 2, 4, [5, 6, 7, 8]⟩ 0 1 =
      some ((([5, 6, 7, 8] : List Nat).drop (pyTrunc ((2 : ℚ) * 0)).toNat).take
        (pyTrunc ((2 : ℚ) * 1) + 1 - pyTrunc ((2 : ℚ) * 0)).toNat) :=
  claim_C4 ⟨true, 2, 4, [5, 6, 7, 8]⟩ 0 1 rfl

/-- C8: both cutters return failure exactly when the source video cannot
be opened; in particular, when the seek point lies at or beyond the last
decodable frame the result is success with an empty clip, not failure. -/
theorem claim_C8 (v : Video) (s e : ℚ) :
    (cut_clip v s e = none ↔ v.opened = false) ∧
    (cut_clip_x v s e = none ↔ v.opened = false) ∧
    (v.opened = true → v.frames.length ≤ (pyTrunc (v.fps * s)).toNat →
      cut_clip v s e = some [] ∧ cut_clip_x v s e = some []) := by
  refine ⟨?_, ?_, ?_⟩
  · by_cases ho : v.opened = false <;> simp [cut_clip, ho]
  · by_cases ho : v.opened = false <;> simp [cut_clip_x, ho]
  · intro hop hseek
    have hno : ¬ v.opened = false := by rw [hop]; decide
    have hdrop : v.frames.drop (pyTrunc (v.fps * s)).toNat = [] :=
      List.drop_eq_nil_of_le hseek
    constructor
    · rw [cut_clip, if_neg hno, readFrames_eq, hdrop, List.take_nil]
    · rw [cut_clip_x, if_neg hno, readFrames_eq, hdrop, List.take_nil]

/-- C8, witness: seeking a 1-fps, 5-frame video to second 100 yields a
successful empty clip, and the failure iff holds there. -/
theorem claim_C8_witness :
    (cut_clip ⟨true, 1, 5, [1, 2, 3, 4, 5]⟩ 100 200 = none ↔
      Video.opened ⟨true, 1, 5, [1, 2, 3, 4, 5]⟩ = false) ∧
    cut_clip ⟨true, 1, 5, [1, 2, 3, 4, 5]⟩ 100 200 = some [] ∧
    cut_clip_x ⟨true, 1, 5, [1, 2, 3, 4, 5]⟩ 100 200 = some [] := by
  have h := claim_C8 ⟨true, 1, 5, [1, 2, 3, 4, 5]⟩ 100 200
  refine ⟨h.1, h.2.2 rfl ?_⟩
  have h100 : pyTrunc ((1 : ℚ) * 100) = 100 := by
    rw [pyTrunc]
    norm_num
  rw [h100]
  norm_num

/-! ## The Frame Sampler

`FrameExtractor.extract_frames` (frame_extractor.py lines 17-52): ensure
the destination folder exists, open the clip, fall back to the target fps
when the reported fps is nonpositive, then write every `interval`-th
decoded frame as `frame_NNNN.jpg`. -/

/-- Python 3 `round()` to an integer: round half to even. -/
def pyRound (q : ℚ) : Int :=
  if q - ⌊q⌋ < 1 / 2 then ⌊q⌋
  else if 1 / 2 < q - ⌊q⌋ then ⌊q⌋ + 1
  else if ⌊q⌋ % 2 = 0 then ⌊q⌋ else ⌊q⌋ + 1

/-- `interval = max(1, int(round(original_fps / target_fps)))` with the
nonpositive-fps fallback `original_fps = target_fps` (lines 29-34). -/
def intervalOf (targetFps : ℚ) (v : Video) : Nat :=
  (max 1 (pyRound ((if v.fps ≤ 0 then targetFps else v.fps) / targetFps))).toNat

/-- Decimal digits of `n`, zero-padded to width 4 (Python `f"NNNN"` with
format spec 04d). -/
def pad4 (n : Nat) : List Char :=
  List.replicate (4 - (Nat.toDigits 10 n).length) '0' ++ Nat.toDigits 10 n

/-- The file name `f"frame_SAVEDIDX.jpg"` with the 4-padded saved index. -/
def frameName (n : Nat) : List Char :=
  ['f', 'r', 'a', 'm', 'e', '_'] ++ pad4 n ++ ['.', 'j', 'p', 'g']

/-- The decode loop (lines 38-49): read until failure; write the frame
when `frame_idx % interval == 0`, naming it by the running saved index. -/
def frameLoop (interval : Nat) : List Nat → Nat → Nat → List (List Char × Nat)
  | [], _, _ => []
  | f :: rest, frameIdx, savedIdx =>
    if frameIdx % interval = 0 then
      (frameName savedIdx, f) :: frameLoop interval rest (frameIdx + 1) (savedIdx + 1)
    else frameLoop interval rest (frameIdx + 1) savedIdx

/-- The (name, frame) pairs written by `FrameExtractor.extract_frames`;
an unopenable video writes nothing. -/
def extract_frames (targetFps : ℚ) (v : Video) : List (List Char × Nat) :=
  if v.opened = false then []
  else frameLoop (intervalOf targetFps v) v.frames 0 0

/-- A filesystem effect of the Frame Sampler: `os.makedirs(path,
exist_ok=True)` (directory created with parents, prior existence
tolerated), or one image write. -/
inductive FsAction where
  | mkdirp (path : List Char)
  | writeImg (name : List Char) (frame : Nat)
deriving DecidableEq

/-- The ordered filesystem effects of `FrameExtractor.extract_frames`:
the destination folder is ensured first (line 22), before the video is
opened; an unopenable video then contributes no writes. -/
def extract_frames_trace (targetFps : ℚ) (saveFolder : List Char)
    (v : Video) : List FsAction :=
  FsAction.mkdirp saveFolder ::
    (extract_frames targetFps v).map (fun p => FsAction.writeImg p.1 p.2)

/-- The decode loop only reads the frame counter modulo the interval. -/
theorem frameLoop_mod (interval : Nat) (frames : List Nat) :
    ∀ i j s, i % interval = j % interval →
      frameLoop interval frames i s = frameLoop interval frames j s := by
  induction frames with
  | nil => intro i j s _; rfl
  | cons f rest ih =>
    intro i j s hij
    have hstep : (i + 1) % interval = (j + 1) % interval := by
      rw [Nat.add_mod i 1, Nat.add_mod j 1, hij]
    by_cases hi : i % interval = 0
    · have hj : j % interval = 0 := by rw [← hij]; exact hi
      rw [frameLoop, frameLoop, if_pos hi, if_pos hj, ih _ _ _ hstep]
    · have hj : ¬ j % interval = 0 := by rw [← hij]; exact hi
      rw [frameLoop, frameLoop, if_neg hi, if_neg hj, ih _ _ _ hstep]

/-- Between two saves the decode loop skips `interval - i` frames. -/
theorem frameLoop_skip (interval : Nat) :
    ∀ k rest s i, i + k = interval → 0 < i →
      frameLoop interval rest i s =
        frameLoop interval (rest.drop k) 0 s := by
  intro k
  induction k with
  | zero =>
    intro rest s i hik _
    rw [List.drop_zero]
    exact frameLoop_mod interval rest i 0 s
      (by rw [Nat.add_zero] at hik; rw [hik, Nat.mod_self, Nat.zero_mod])
  | succ k ih =>
    intro rest s i hik hipos
    have hilt : i < interval := by omega
    have hmod : ¬ i % interval = 0 := by
      rw [Nat.mod_eq_of_lt hilt]
      omega
    cases rest with
    | nil => rw [List.drop_nil]; rfl
    | cons f rest' =>
      rw [frameLoop, if_neg hmod, List.drop_succ_cons]
      exact ih rest' s (i + 1) (by omega) (by omega)

/-- The `k`-th written pair of the decode loop started at frame 0 is the
frame with arrival index `k * interval`, named with saved index `s + k`. -/
theorem frameLoop_get (interval : Nat) (hpos : 0 < interval) :
    ∀ k frames s, (frameLoop interval frames 0 s).get? k =
      (frames.get? (k * interval)).map (fun f => (frameName (s + k), f)) := by
  intro k
  induction k with
  | zero =>
    intro frames s
    cases frames with
    | nil => rfl
    | cons f rest =>
      rw [frameLoop, if_pos (Nat.zero_mod interval)]
      simp
  | succ k ih =>
    intro frames s
    cases frames with
    | nil => rfl
    | cons f rest =>
      rw [frameLoop, if_pos (Nat.zero_mod interval)]
      have hskip : frameLoop interval rest 1 (s + 1) =
          frameLoop interval (rest.drop (interval - 1)) 0 (s + 1) :=
        frameLoop_skip interval (interval - 1) rest (s + 1) 1 (by omega)
          (by omega)
      have hidx : (k + 1) * interval = interval - 1 + k * interval + 1 := by
        have : 1 ≤ interval := hpos
        calc (k + 1) * interval = k * interval + interval := by ring
        _ = interval - 1 + k * interval + 1 := by omega
      rw [List.get?_cons_succ, hskip, ih (rest.drop (interval - 1)) (s + 1),
        List.get?_drop, hidx, List.get?_cons_succ]
      have hname : s + 1 + k = s + (k + 1) := by omega
      rw [hname]

/-- The sampling interval is always at least 1. -/
theorem intervalOf_pos (tf : ℚ) (v : Video) : 0 < intervalOf tf v := by
  have h : (1 : Int).toNat ≤ (max 1
      (pyRound ((if v.fps ≤ 0 then tf else v.fps) / tf))).toNat :=
    Int.toNat_le_toNat (le_max_left 1 _)
  rw [intervalOf]
  omega

/-- `round(1.0) = 1`. -/
theorem pyRound_one : pyRound 1 = 1 := by
  norm_num [pyRound, Int.floor_one]

/-- C9: on a readable clip, the `k`-th written image pairs the frame whose
0-based arrival index is `k * interval` with the name of saved index `k`
(so exactly the arrival indices divisible by the interval are written, in
arrival order); a nonpositive reported fps falls back to the target rate,
giving interval 1; and a native rate equal to the target rate (e.g. both
25) also gives interval 1, so every decoded frame is written. -/
theorem claim_C9 (tf : ℚ) (v : Video) (htf : 0 < tf) (hop : v.opened = true) :
    (∀ k, (extract_frames tf v).get? k =
      (v.frames.get? (k * intervalOf tf v)).map (fun f => (frameName k, f))) ∧
    (v.fps ≤ 0 → intervalOf tf v = 1) ∧
    (v.fps = tf → intervalOf tf v = 1) := by
  have hpos : 0 < intervalOf tf v := intervalOf_pos tf v
  refine ⟨?_, ?_, ?_⟩
  · intro k
    have hno : ¬ v.opened = false := by rw [hop]; decide
    rw [extract_frames, if_neg hno,
      frameLoop_get (intervalOf tf v) hpos k v.frames 0]
    simp only [Nat.zero_add]
  · intro hfps
    rw [intervalOf, if_pos hfps, div_self (ne_of_gt htf), pyRound_one]
    decide
  · intro hfeq
    have hnle : ¬ v.fps ≤ 0 := by rw [hfeq]; exact not_le.mpr htf
    rw [intervalOf, if_neg hnle, hfeq, div_self (ne_of_gt htf), pyRound_one]
    decide

/-- A readable 3-frame clip at native fps 25. -/
def wVid9 : Video := ⟨true, 25, 3, [10, 20, 30]⟩

/-- C9, witness: at native fps = target fps = 25 the interval is 1, the
written image at position 1 pairs `frame_0001.jpg` with arrival index
`1 * 1`, and saved index 0 is named `frame_0000.jpg`. -/
theorem claim_C9_witness :
    intervalOf 25 wVid9 = 1 ∧
    (extract_frames 25 wVid9).get? 1 =
      (wVid9.frames.get? (1 * intervalOf 25 wVid9)).map
        (fun f => (frameName 1, f)) ∧
    frameName 0 =
      ['f', 'r', 'a', 'm', 'e', '_', '0', '0', '0', '0', '.', 'j', 'p', 'g'] := by
  have h := claim_C9 25 wVid9 (by norm_num) rfl
  exact ⟨h.2.2 rfl, h.1 1, by decide⟩

/-- C10: the Frame Sampler ensures the destination folder as its first
filesystem effect, before the video is opened; hence on an unopenable
video the folder is still created, no frame is written, and the call
returns normally (the trace is exactly the folder creation). -/
theorem claim_C10 (tf : ℚ) (folder : List Char) (v : Video) :
    (extract_frames_trace tf folder v).head? = some (FsAction.mkdirp folder) ∧
    (v.opened = false →
      extract_frames_trace tf folder v = [FsAction.mkdirp folder]) := by
  constructor
  · rfl
  · intro h
    rw [extract_frames_trace, extract_frames, if_pos h]
    rfl

/-- C10, witness: an unopenable video's trace is exactly the creation of
the destination folder. -/
theorem claim_C10_witness :
    (extract_frames_trace 25 ['d'] ⟨false, 25, 0, [1, 2]⟩).head? =
      some (FsAction.mkdirp ['d']) ∧
    extract_frames_trace 25 ['d'] ⟨false, 25, 0, [1, 2]⟩ =
      [FsAction.mkdirp ['d']] :=
  ⟨(claim_C10 25 ['d'] ⟨false, 25, 0, [1, 2]⟩).1,
    (claim_C10 25 ['d'] ⟨false, 25, 0, [1, 2]⟩).2 rfl⟩

end SBD
